import Mathlib

/-!
# A verification development for the `wolf` werewolf game server

This file gives a shallow embedding of the host-side game engine found in
`src/server.rs` (message types from `src/comm.rs`, client acknowledgment
behaviour from `src/client.rs`) and proves properties of the embedded
definitions.

Modelling conventions:

* The Rust `HashMap<PlayerId, Player>` registry is modelled as a
  `List Player`: the list order stands for the (arbitrary but, between
  mutations, stable) iteration order of the hash map.  All theorems are
  stated for an arbitrary list, so they hold for every iteration order.
* A Rust `panic!` / `.unwrap()` failure is modelled by returning `none`:
  the panic unwinds the server thread and aborts the whole game loop.
* Host console logging (`println!`) is not modelled; message traffic is.
* Wire traffic is recorded as a trace of `Event`s.  Every informational
  host message blocks until the client acknowledges with `Received`
  (see `Player::send` in `server.rs` and `send_ack` in `client.rs`), so an
  informational send contributes a `sent`/`received` pair to the trace.
* Random values (`rng.gen_range`) and remote players' choices are taken as
  explicit parameters, so the functions are otherwise deterministic.

Note on the source: `comm.rs` declares `PlayerId` payloads for most
server-to-client messages, but `server.rs` and `client.rs` (the behavioural
variant embedded here) construct and consume those payloads as display-name
`String`s, and `Vote`/`Kill` carry `usize` indices into the candidate list
last sent.  The embedding follows the behaviour of `server.rs`/`client.rs`.
-/

namespace Wolf

/-- `Role` from `comm.rs`: the role of a player in the game. -/
inductive Role where
  | Wolf
  | Villager
deriving DecidableEq, Repr

/-- `Winner` from `comm.rs`: the side that won when the game is over. -/
inductive Winner where
  | Wolf
  | Village
deriving DecidableEq, Repr

/-- `CtsMessage` from `comm.rs` (client-to-server).  `Vote` and `Kill`
carry an index into the list of options the client was last sent. -/
inductive CtsMessage where
  | Connect (name : String)
  | Vote (idx : Nat)
  | Kill (idx : Nat)
  | Received
deriving DecidableEq, Repr

/-- `StcMessage` (server-to-client), with the payload types the server
actually constructs in `server.rs` (names, not ids, for the player-valued
fields other than `AnnounceJoin`/`IdAssigned`/`Players`). -/
inductive StcMessage where
  | WolvesWake
  | NightFalls
  | Died (name : String)
  | VoteOptions (names : List String)
  | KillOptions (names : List String)
  | AnnounceVote (voter target : String)
  | NoMajority
  | VotedOut (name : String)
  | RoleAssigned (role : Role)
  | AnnounceWinner (winner : Winner)
  | WaitingFor (name : String)
  | AnnounceJoin (id : Nat) (name : String)
  | IdAssigned (id : Nat)
  | Players (roster : List (Nat × String))
deriving DecidableEq, Repr

/-- One observable wire event on the host: a message sent to the client
with the given id, or a message received from it. -/
inductive Event where
  | sent (recipient : Nat) (msg : StcMessage)
  | received (sender : Nat) (msg : CtsMessage)
deriving DecidableEq, Repr

/-- `Player` from `server.rs` (the Tcp stream is replaced by the event
trace; `PlayerId` is its underlying `usize`). -/
structure Player where
  id : Nat
  name : String
  dead : Bool
  role : Option Role
deriving DecidableEq, Repr

/-- `Game` from `server.rs`: the registry of players plus the next fresh
id (`PlayerId::new()` starts at 0, `PlayerId::next` adds 1). -/
structure Game where
  players : List Player
  next_id : Nat
deriving DecidableEq, Repr

/-- `Game::new`. -/
def Game.new : Game := { players := [], next_id := 0 }

/-- `Game::send_all`: send the message to every registered player (dead
players included), each send blocking for the client's `Received` ack. -/
def sendAll (players : List Player) (msg : StcMessage) : List Event :=
  players.flatMap fun p => [Event.sent p.id msg, Event.received p.id CtsMessage.Received]

/-- `Game::take_next_id`: hand out the current id and advance it. -/
def Game.take_next_id (g : Game) : Nat × Game :=
  (g.next_id, { g with next_id := g.next_id + 1 })

/-- `Game::add_player`: announce the join to the already-registered
players, then send the newcomer the roster of already-registered players,
then insert the newcomer into the registry. -/
def Game.add_player (g : Game) (player : Player) : Game × List Event :=
  let joinEvs := sendAll g.players (StcMessage.AnnounceJoin player.id player.name)
  let roster := g.players.map fun p => (p.id, p.name)
  let rosterEvs := [Event.sent player.id (StcMessage.Players roster),
                    Event.received player.id CtsMessage.Received]
  ({ g with players := g.players ++ [player] }, joinEvs ++ rosterEvs)

/-- `Player::join`: read the `Connect` message (any other first message
panics, i.e. `none`), allocate an id, reply `IdAssigned` (the client acks
with `Received`), then `add_player`. -/
def Player.join (g : Game) (firstMsg : CtsMessage) : Option (Game × List Event) :=
  match firstMsg with
  | CtsMessage.Connect name =>
    let (id, g) := g.take_next_id
    let player : Player := { id := id, name := name, dead := false, role := none }
    let (g', evs) := g.add_player player
    some (g', [Event.received id (CtsMessage.Connect name),
               Event.sent id (StcMessage.IdAssigned id),
               Event.received id CtsMessage.Received] ++ evs)
  | _ => none

/-- The loop body of `Game::assign_roles`: walk the players with a running
index `i`, give the player at `wolf_index` the `Wolf` role and everyone
else `Villager`, and send each player their own `RoleAssigned` privately. -/
def assignFrom (wolf_index : Nat) : Nat → List Player → List Player × List Event
  | _, [] => ([], [])
  | i, p :: ps =>
    let role := if i = wolf_index then Role.Wolf else Role.Villager
    let rest := assignFrom wolf_index (i + 1) ps
    ({ p with role := some role } :: rest.1,
     Event.sent p.id (StcMessage.RoleAssigned role)
       :: Event.received p.id CtsMessage.Received :: rest.2)

/-- `Game::assign_roles`, with the randomly drawn wolf index
(`rng.gen_range(0..len)`, so a draw always satisfies `wolf_index < len`)
taken as a parameter. -/
def Game.assign_roles (g : Game) (wolf_index : Nat) : Game × List Event :=
  let res := assignFrom wolf_index 0 g.players
  ({ g with players := res.1 }, res.2)

/-- The filter used in `Game::play_night` for both the kill-candidate
list and the victim lookup: alive and not the wolf. -/
def killEligible (p : Player) : Bool :=
  decide (p.role ≠ some Role.Wolf) && !p.dead

/-- Mark dead the `n`-th player (in registry order) satisfying `pred`;
used for the night kill (`pred = killEligible`) and the day vote-out
(`pred = alive`). -/
def markNth (pred : Player → Bool) : List Player → Nat → List Player
  | [], _ => []
  | p :: ps, n =>
    if pred p then
      match n with
      | 0 => { p with dead := true } :: ps
      | Nat.succ m => p :: markNth pred ps m
    else p :: markNth pred ps n

/-- `Player::role` is called on every player during the night phase; it
panics unless every role is assigned. -/
def rolesAssigned (ps : List Player) : Bool :=
  ps.all fun p => p.role.isSome

/-- `Game::play_night`, with the wolf's response to `KillOptions` taken as
a parameter.  Returns the updated game, the victim's name and the trace;
`none` models a host panic (unassigned role, no wolf, a non-`Kill`
response, or an out-of-range kill index). -/
def Game.play_night (g : Game) (wolfResponse : CtsMessage) :
    Option (Game × String × List Event) :=
  let nightEvs := sendAll g.players StcMessage.NightFalls ++
    sendAll g.players StcMessage.WolvesWake
  if rolesAssigned g.players then
    match g.players.find? (fun p => decide (p.role = some Role.Wolf)) with
    | none => none
    | some wolf =>
      let kill_names := (g.players.filter killEligible).map Player.name
      let killEvs := [Event.sent wolf.id (StcMessage.KillOptions kill_names),
                      Event.received wolf.id wolfResponse]
      match wolfResponse with
      | CtsMessage.Kill num =>
        match (g.players.filter killEligible).get? num with
        | none => none
        | some victim =>
          some ({ g with players := markNth killEligible g.players num },
                victim.name, nightEvs ++ killEvs)
      | _ => none
  else none

/-- `votes.insert(name, vote)` on the `HashMap<String, usize>` of ballots:
at most one ballot per name, a later ballot overwriting an earlier one.
The list order is irrelevant to the (order-insensitive) counting below. -/
def insertBallot (votes : List (String × Nat)) (name : String) (idx : Nat) :
    List (String × Nat) :=
  (votes.filter fun b => decide (b.1 ≠ name)) ++ [(name, idx)]

/-- The count a candidate index receives in `vote_counts` (the loop
`*vote_counts.entry(player_index).or_default() += 1`). -/
def voteCount (votes : List (String × Nat)) (i : Nat) : Nat :=
  (votes.filter fun b => b.2 == i).length

/-- The candidate indices present in `vote_counts` (the keys of the
counting hash map). -/
def ballotIndices (votes : List (String × Nat)) : List Nat :=
  (votes.map Prod.snd).dedup

/-- The voting loop of `Game::play_day`.  `allPlayers` is the full
registry (broadcast recipients), `living` the fixed list of living players
computed at the start of the day, `resp` gives each living player's
response to `VoteOptions` (by position in `living`).  The loop announces
`WaitingFor`, requests a vote, and on a `Vote(v)` announces
`AnnounceVote(voter, living[v])` — panicking (`none`) if `v` is out of
range — and records the ballot; any other response is logged on the host
console only and no ballot is recorded for that player. -/
def voteLoop (allPlayers living : List Player) (resp : Nat → CtsMessage) :
    Nat → List Player → List (String × Nat) →
    Option (List (String × Nat) × List Event)
  | _, [], acc => some (acc, [])
  | i, p :: ps, acc =>
    let waitEvs := sendAll allPlayers (StcMessage.WaitingFor p.name)
    let optEvs := [Event.sent p.id (StcMessage.VoteOptions (living.map Player.name)),
                   Event.received p.id (resp i)]
    match resp i with
    | CtsMessage.Vote v =>
      match living.get? v with
      | none => none
      | some target =>
        let annEvs := sendAll allPlayers (StcMessage.AnnounceVote p.name target.name)
        match voteLoop allPlayers living resp (i + 1) ps (insertBallot acc p.name v) with
        | none => none
        | some (bs, evs) => some (bs, waitEvs ++ optEvs ++ annEvs ++ evs)
    | _ =>
      match voteLoop allPlayers living resp (i + 1) ps acc with
      | none => none
      | some (bs, evs) => some (bs, waitEvs ++ optEvs ++ evs)

/-- The living players, in registry order: the filter `play_day` computes
at its start (`self.players.values().filter(|p| !p.dead)`). -/
def Game.living (g : Game) : List Player :=
  g.players.filter fun p => !p.dead

/-- `Game::play_day`, with each living player's response taken as a
parameter.  Broadcasts who `Died` last night, collects the votes, picks a
candidate with the maximal count (`max_by_key`; the tie among equals is
decided by hash-map iteration order in Rust, here by the ballot order),
and applies the majority rule: the candidate is voted out only when its
count strictly exceeds `living.len() / 2`, otherwise `NoMajority` is
broadcast and nobody is eliminated.  After an elimination the winner check
runs: the wolf voted out means `Winner.Village`; otherwise, when the
living count *captured before the elimination* equals 2, `Winner.Wolf`.
`none` models a host panic (an out-of-range vote index, zero ballots
tabulated, or an unassigned role on the eliminated player). -/
def Game.play_day (g : Game) (killed_name : String) (resp : Nat → CtsMessage) :
    Option (Game × Option Winner × List Event) :=
  let diedEvs := sendAll g.players (StcMessage.Died killed_name)
  let living := g.living
  match voteLoop g.players living resp 0 living [] with
  | none => none
  | some (ballots, loopEvs) =>
    match (ballotIndices ballots).argmax (voteCount ballots) with
    | none => none
    | some voted_index =>
      let num_votes := voteCount ballots voted_index
      if num_votes > living.length / 2 then
        match living.get? voted_index with
        | none => none
        | some voted =>
          let outEvs := sendAll g.players (StcMessage.VotedOut voted.name)
          -- `living_mut` in the source: the same alive-filter, collected
          -- before the kill, so its length is the pre-elimination count.
          let living_mut_len := g.living.length
          let players' := markNth (fun p => !p.dead) g.players voted_index
          match voted.role with
          | none => none
          | some Role.Wolf =>
            some ({ g with players := players' }, some Winner.Village,
                  diedEvs ++ loopEvs ++ outEvs)
          | some Role.Villager =>
            if living_mut_len = 2 then
              some ({ g with players := players' }, some Winner.Wolf,
                    diedEvs ++ loopEvs ++ outEvs)
            else
              some ({ g with players := players' }, none,
                    diedEvs ++ loopEvs ++ outEvs)
      else
        some (g, none, diedEvs ++ loopEvs ++ sendAll g.players StcMessage.NoMajority)

/-- Forget the event trace of a day-phase result; used to state compact
concrete evaluations of `play_day`. -/
def dayResult (o : Option (Game × Option Winner × List Event)) :
    Option (Game × Option Winner) :=
  o.map fun out => (out.1, out.2.1)

/-- Recognizes a roster-snapshot send event. -/
def isSnapshotEv : Event → Bool
  | Event.sent _ (StcMessage.Players _) => true
  | _ => false

/-- Recognizes a join-announcement send event. -/
def isAnnounceJoinEv : Event → Bool
  | Event.sent _ (StcMessage.AnnounceJoin _ _) => true
  | _ => false

/-- Modelled from the spec: the §6 handshake sentence orders the roster
snapshot *before* the `AnnounceJoin` broadcast, so in a join trace every
snapshot event should precede every join-announcement event.  This
definition follows the spec's words; it is compared against the trace the
embedded `Player::join` actually produces. -/
def specSnapshotBeforeAnnounce (evs : List Event) : Prop :=
  ∀ pi ∈ evs.enum, ∀ qj ∈ evs.enum,
    isSnapshotEv pi.2 = true → isAnnounceJoinEv qj.2 = true → pi.1 < qj.1

/-! ## Concrete fixtures for witnesses and counterexamples -/

/-- A one-player game (a lone living villager), roles assigned. -/
def gOne : Game :=
  { players := [{ id := 0, name := "A", dead := false, role := some Role.Villager }],
    next_id := 1 }

/-- `gOne` after its player is voted out. -/
def gOne' : Game :=
  { players := [{ id := 0, name := "A", dead := true, role := some Role.Villager }],
    next_id := 1 }

/-- A three-player game: villagers `A`, `B` and the wolf `W`, all alive,
roles assigned. -/
def gThree : Game :=
  { players := [{ id := 0, name := "A", dead := false, role := some Role.Villager },
                { id := 1, name := "B", dead := false, role := some Role.Villager },
                { id := 2, name := "W", dead := false, role := some Role.Wolf }],
    next_id := 3 }

/-- A two-player game with roles assigned: villager `A` and wolf `W`. -/
def gTwoRoles : Game :=
  { players := [{ id := 0, name := "A", dead := false, role := some Role.Villager },
                { id := 1, name := "W", dead := false, role := some Role.Wolf }],
    next_id := 2 }

/-- A two-player game before role assignment. -/
def gTwoUnassigned : Game :=
  { players := [{ id := 0, name := "A", dead := false, role := none },
                { id := 1, name := "B", dead := false, role := none }],
    next_id := 2 }

/-- A game whose only living player is the wolf itself. -/
def gWolfOnly : Game :=
  { players := [{ id := 0, name := "W", dead := false, role := some Role.Wolf }],
    next_id := 1 }

/-- Like `gThree` but with player identities (10, 11, 12) disjoint from
all candidate-list indices, to separate addressing by identity from
addressing by index. -/
def c8g : Game :=
  { players := [{ id := 10, name := "A", dead := false, role := some Role.Villager },
                { id := 11, name := "B", dead := false, role := some Role.Villager },
                { id := 12, name := "W", dead := false, role := some Role.Wolf }],
    next_id := 13 }

/-- A one-player registry about to receive a second join. -/
def c6g : Game :=
  { players := [{ id := 0, name := "A", dead := false, role := none }],
    next_id := 1 }

/-- The trace the embedded host produces for `B` joining `c6g`. -/
def c6evs : List Event :=
  [Event.received 1 (CtsMessage.Connect "B"),
   Event.sent 1 (StcMessage.IdAssigned 1),
   Event.received 1 CtsMessage.Received,
   Event.sent 0 (StcMessage.AnnounceJoin 1 "B"),
   Event.received 0 CtsMessage.Received,
   Event.sent 1 (StcMessage.Players [(0, "A")]),
   Event.received 1 CtsMessage.Received]

/-- `c6g` after `B` joined. -/
def c6g' : Game :=
  { players := [{ id := 0, name := "A", dead := false, role := none },
                { id := 1, name := "B", dead := false, role := none }],
    next_id := 2 }

/-- The ballot list and loop trace produced by the single voter of `gOne`
voting for candidate index 0. -/
def c1levs : List Event :=
  [Event.sent 0 (StcMessage.WaitingFor "A"),
   Event.received 0 CtsMessage.Received,
   Event.sent 0 (StcMessage.VoteOptions ["A"]),
   Event.received 0 (CtsMessage.Vote 0),
   Event.sent 0 (StcMessage.AnnounceVote "A" "A"),
   Event.received 0 CtsMessage.Received]

/-- The full day trace for `gOne` with its single voter voting index 0. -/
def c1evs : List Event :=
  [Event.sent 0 (StcMessage.Died "x"), Event.received 0 CtsMessage.Received] ++
    c1levs ++
    [Event.sent 0 (StcMessage.VotedOut "A"), Event.received 0 CtsMessage.Received]

/-- `gTwoRoles` after the wolf kills `A` at night. -/
def gTwoRoles' : Game :=
  { players := [{ id := 0, name := "A", dead := true, role := some Role.Villager },
                { id := 1, name := "W", dead := false, role := some Role.Wolf }],
    next_id := 2 }

/-- The night trace for `gTwoRoles` with the wolf answering `Kill 0`. -/
def c4nEvs : List Event :=
  [Event.sent 0 StcMessage.NightFalls, Event.received 0 CtsMessage.Received,
   Event.sent 1 StcMessage.NightFalls, Event.received 1 CtsMessage.Received,
   Event.sent 0 StcMessage.WolvesWake, Event.received 0 CtsMessage.Received,
   Event.sent 1 StcMessage.WolvesWake, Event.received 1 CtsMessage.Received,
   Event.sent 1 (StcMessage.KillOptions ["A"]),
   Event.received 1 (CtsMessage.Kill 0)]

/-- `gWolfOnly` after its wolf is voted out. -/
def gWolfOnly' : Game :=
  { players := [{ id := 0, name := "W", dead := true, role := some Role.Wolf }],
    next_id := 1 }

/-- The loop trace for `gWolfOnly` with its lone voter voting index 0. -/
def c4levs : List Event :=
  [Event.sent 0 (StcMessage.WaitingFor "W"), Event.received 0 CtsMessage.Received,
   Event.sent 0 (StcMessage.VoteOptions ["W"]), Event.received 0 (CtsMessage.Vote 0),
   Event.sent 0 (StcMessage.AnnounceVote "W" "W"), Event.received 0 CtsMessage.Received]

/-- The full day trace for `gWolfOnly` with its lone voter voting index 0. -/
def c4devs : List Event :=
  [Event.sent 0 (StcMessage.Died "x"), Event.received 0 CtsMessage.Received] ++
    c4levs ++
    [Event.sent 0 (StcMessage.VotedOut "W"), Event.received 0 CtsMessage.Received]

/-! ## Helper lemmas -/

lemma sendAll_mem {p : Player} {ps : List Player} (hp : p ∈ ps) (msg : StcMessage) :
    Event.sent p.id msg ∈ sendAll ps msg := by
  simp only [sendAll, List.mem_flatMap]
  exact ⟨p, hp, by simp⟩

lemma sendAll_sent_inv {ps : List Player} {msg : StcMessage} {r : Nat} {m : StcMessage}
    (h : Event.sent r m ∈ sendAll ps msg) : m = msg ∧ ∃ p ∈ ps, p.id = r := by
  simp only [sendAll, List.mem_flatMap] at h
  obtain ⟨p, hp, hm⟩ := h
  simp only [List.mem_cons, List.mem_singleton] at hm
  rcases hm with hm | hm | hm <;> first
    | (cases hm; exact ⟨rfl, p, hp, rfl⟩)
    | exact absurd hm (by simp)

lemma get?_filter_props {pred : Player → Bool} {ps : List Player} {n : Nat} {v : Player}
    (h : (ps.filter pred).get? n = some v) : v ∈ ps ∧ pred v = true := by
  have hv : v ∈ ps.filter pred := List.get?_mem h
  exact List.mem_filter.mp hv

lemma markNth_eq_set (pred : Player → Bool) :
    ∀ (ps : List Player) (n : Nat) (v : Player),
      (ps.filter pred).get? n = some v →
      ∃ i, ps.get? i = some v ∧ markNth pred ps n = ps.set i { v with dead := true }
  | [], n, v => by simp
  | p :: ps, n, v => by
    intro h
    by_cases hp : pred p
    · rw [List.filter_cons_of_pos hp] at h
      cases n with
      | zero =>
        rw [List.get?_cons_zero, Option.some_inj] at h
        subst h
        exact ⟨0, rfl, by simp [markNth, hp]⟩
      | succ m =>
        rw [List.get?_cons_succ] at h
        obtain ⟨i, hi, hmark⟩ := markNth_eq_set pred ps m v h
        exact ⟨i + 1, by simpa using hi, by simp [markNth, hp, hmark]⟩
    · rw [List.filter_cons_of_neg (by simpa using hp)] at h
      obtain ⟨i, hi, hmark⟩ := markNth_eq_set pred ps n v h
      exact ⟨i + 1, by simpa using hi, by simp [markNth, hp, hmark]⟩

lemma markNth_get?_role (pred : Player → Bool) :
    ∀ (ps : List Player) (n j : Nat),
      ((markNth pred ps n).get? j).map Player.role = (ps.get? j).map Player.role
  | [], n, j => by simp [markNth]
  | p :: ps, n, j => by
    by_cases hp : pred p
    · cases n with
      | zero =>
        cases j with
        | zero => simp [markNth, hp]
        | succ jj => simp [markNth, hp]
      | succ m =>
        cases j with
        | zero => simp [markNth, hp]
        | succ jj => simpa [markNth, hp] using markNth_get?_role pred ps m jj
    · cases j with
      | zero => simp [markNth, hp]
      | succ jj => simpa [markNth, hp] using markNth_get?_role pred ps n jj

/-- The full `Player::join` trace: `Connect` in, `IdAssigned` out (acked),
then `add_player`: the join broadcast to the previously-registered
players, then the roster snapshot to the newcomer. -/
lemma join_eq (g : Game) (nm : String) :
    Player.join g (CtsMessage.Connect nm) =
      some ({ players := g.players ++
                [{ id := g.next_id, name := nm, dead := false, role := none }],
              next_id := g.next_id + 1 },
            [Event.received g.next_id (CtsMessage.Connect nm),
             Event.sent g.next_id (StcMessage.IdAssigned g.next_id),
             Event.received g.next_id CtsMessage.Received] ++
            (sendAll g.players (StcMessage.AnnounceJoin g.next_id nm) ++
             [Event.sent g.next_id
                (StcMessage.Players (g.players.map fun p => (p.id, p.name))),
              Event.received g.next_id CtsMessage.Received])) := by
  simp [Player.join, Game.take_next_id, Game.add_player]

lemma no_self_announce {g : Game} {nm : String}
    (hfresh : ∀ p ∈ g.players, p.id < g.next_id) (a : Nat) (b : String) :
    Event.sent g.next_id (StcMessage.AnnounceJoin a b) ∉
      sendAll g.players (StcMessage.AnnounceJoin g.next_id nm) := by
  intro h
  obtain ⟨-, p, hp, hid⟩ := sendAll_sent_inv h
  exact absurd (hid ▸ hfresh p hp) (lt_irrefl _)

lemma assignFrom_length (w : Nat) :
    ∀ (ps : List Player) (i : Nat), (assignFrom w i ps).1.length = ps.length
  | [], _ => rfl
  | p :: ps, i => by simp [assignFrom, assignFrom_length w ps (i + 1)]

/-- Pointwise description of `assign_roles`' loop: the player at position
`j` keeps its identity and is assigned `Wolf` exactly when its running
index hits the drawn wolf index, and is sent its own role privately. -/
lemma assignFrom_get (w : Nat) :
    ∀ (ps : List Player) (i j : Nat) (p : Player),
      ps.get? j = some p →
      (assignFrom w i ps).1.get? j =
        some { p with role := some (if i + j = w then Role.Wolf else Role.Villager) } ∧
      Event.sent p.id (StcMessage.RoleAssigned
        (if i + j = w then Role.Wolf else Role.Villager)) ∈ (assignFrom w i ps).2
  | [], i, j, p => by simp
  | q :: ps, i, j, p => by
    cases j with
    | zero =>
      intro h
      rw [List.get?_cons_zero, Option.some_inj] at h
      subst h
      exact ⟨by simp [assignFrom], by simp [assignFrom]⟩
    | succ jj =>
      intro h
      rw [List.get?_cons_succ] at h
      obtain ⟨h1, h2⟩ := assignFrom_get w ps (i + 1) jj p h
      rw [show i + (jj + 1) = i + 1 + jj from by omega]
      constructor
      · simpa [assignFrom] using h1
      · simp only [assignFrom, List.mem_cons]
        exact Or.inr (Or.inr h2)

lemma assignFrom_count (w : Nat) :
    ∀ (ps : List Player) (i : Nat),
      (assignFrom w i ps).1.countP (fun p => decide (p.role = some Role.Wolf)) =
        if i ≤ w ∧ w < i + ps.length then 1 else 0
  | [], i => by
    simp only [assignFrom, List.countP_nil, List.length_nil]
    rw [if_neg (by omega)]
  | p :: ps, i => by
    have ih := assignFrom_count w ps (i + 1)
    by_cases hiw : i = w
    · subst hiw
      simp only [assignFrom, List.countP_cons, ih, if_pos rfl, List.length_cons]
      have hfalse : ¬ (i + 1 ≤ i ∧ i < i + 1 + ps.length) := by omega
      rw [if_neg hfalse]
      simp
    · simp only [assignFrom, List.countP_cons, ih, if_neg hiw, List.length_cons]
      have : (decide ((some Role.Villager : Option Role) = some Role.Wolf)) = false := by
        decide
      simp [this]
      have hiff : (i + 1 ≤ w ∧ w < i + 1 + ps.length) ↔
          (i ≤ w ∧ w < i + (ps.length + 1)) := by omega
      by_cases hcond : i + 1 ≤ w ∧ w < i + 1 + ps.length
      · rw [if_pos hcond, if_pos (hiff.mp hcond)]
      · rw [if_neg hcond, if_neg (fun hcc => hcond (hiff.mpr hcc))]

lemma insertBallot_ne_nil (votes : List (String × Nat)) (nm : String) (v : Nat) :
    insertBallot votes nm v ≠ [] := by
  simp [insertBallot]

lemma mem_insertBallot {b : String × Nat} {votes : List (String × Nat)}
    {nm : String} {v : Nat} (h : b ∈ insertBallot votes nm v) :
    b ∈ votes ∨ b = (nm, v) := by
  simp only [insertBallot, List.mem_append, List.mem_filter,
    List.mem_singleton] at h
  rcases h with ⟨hb, -⟩ | hb
  exacts [Or.inl hb, Or.inr hb]

/-- Behaviour of the day voting loop: when every `Vote` response carries
an in-range index the loop completes (no panic), every recorded ballot
comes from the accumulator or from a player position that actually
responded with that `Vote`, and the ballot list is nonempty as soon as the
accumulator was or some visited player voted. -/
lemma voteLoop_spec (allP living : List Player) (resp : Nat → CtsMessage) :
    ∀ (ps : List Player) (i : Nat) (acc : List (String × Nat)),
      (∀ k, k < ps.length → ∀ v, resp (i + k) = CtsMessage.Vote v →
        v < living.length) →
      ∃ bs evs, voteLoop allP living resp i ps acc = some (bs, evs) ∧
        (∀ b ∈ bs, b ∈ acc ∨
          ∃ k, ∃ hk : k < ps.length,
            resp (i + k) = CtsMessage.Vote b.2 ∧ b.1 = (ps.get ⟨k, hk⟩).name) ∧
        ((acc ≠ [] ∨ ∃ k, k < ps.length ∧ ∃ v, resp (i + k) = CtsMessage.Vote v) →
          bs ≠ [])
  | [], i, acc => by
    intro _
    refine ⟨acc, [], rfl, fun b hb => Or.inl hb, ?_⟩
    rintro (h | ⟨k, hk, -⟩)
    · exact h
    · exact absurd hk (by simp)
  | p :: ps, i, acc => by
    intro hvalid
    have hvalid' : ∀ k, k < ps.length → ∀ v, resp (i + 1 + k) = CtsMessage.Vote v →
        v < living.length := fun k hk v hv =>
      hvalid (k + 1) (by simpa using hk) v
        (by rwa [show i + (k + 1) = i + 1 + k from by omega])
    cases hr : resp i with
    | Vote v =>
      have hvlt : v < living.length :=
        hvalid 0 (by simp) v (by rwa [show i + 0 = i from rfl])
      have hget : living.get? v = some (living.get ⟨v, hvlt⟩) := List.get?_eq_get hvlt
      obtain ⟨bs, evs, heq, hkeys, hne⟩ :=
        voteLoop_spec allP living resp ps (i + 1) (insertBallot acc p.name v) hvalid'
      refine ⟨bs,
        sendAll allP (StcMessage.WaitingFor p.name) ++
          [Event.sent p.id (StcMessage.VoteOptions (living.map Player.name)),
           Event.received p.id (resp i)] ++
          sendAll allP (StcMessage.AnnounceVote p.name (living.get ⟨v, hvlt⟩).name) ++
          evs, ?_, ?_, ?_⟩
      · simp only [voteLoop, hr, hget, heq]
      · intro b hb
        rcases hkeys b hb with hmem | ⟨k, hk, hv, hn⟩
        · rcases mem_insertBallot hmem with hmem' | hbeq
          · exact Or.inl hmem'
          · subst hbeq
            exact Or.inr ⟨0, by simp, by rwa [show i + 0 = i from rfl], by simp⟩
        · refine Or.inr ⟨k + 1, by simpa using hk,
            by rwa [show i + (k + 1) = i + 1 + k from by omega], by simpa using hn⟩
      · intro _
        exact hne (Or.inl (insertBallot_ne_nil acc p.name v))
    | Connect nm =>
      obtain ⟨bs, evs, heq, hkeys, hne⟩ :=
        voteLoop_spec allP living resp ps (i + 1) acc hvalid'
      refine ⟨bs,
        sendAll allP (StcMessage.WaitingFor p.name) ++
          [Event.sent p.id (StcMessage.VoteOptions (living.map Player.name)),
           Event.received p.id (resp i)] ++ evs, ?_, ?_, ?_⟩
      · simp only [voteLoop, hr, heq]
      · intro b hb
        rcases hkeys b hb with hmem | ⟨k, hk, hv, hn⟩
        · exact Or.inl hmem
        · exact Or.inr ⟨k + 1, by simpa using hk,
            by rwa [show i + (k + 1) = i + 1 + k from by omega], by simpa using hn⟩
      · rintro (hacc | ⟨k, hk, v', hv'⟩)
        · exact hne (Or.inl hacc)
        · cases k with
          | zero =>
            rw [show i + 0 = i from rfl, hr] at hv'
            exact CtsMessage.noConfusion hv'
          | succ kk =>
            exact hne (Or.inr ⟨kk, by simpa using hk, v',
              by rw [show i + 1 + kk = i + (kk + 1) from by omega]; exact hv'⟩)
    | Kill n =>
      obtain ⟨bs, evs, heq, hkeys, hne⟩ :=
        voteLoop_spec allP living resp ps (i + 1) acc hvalid'
      refine ⟨bs,
        sendAll allP (StcMessage.WaitingFor p.name) ++
          [Event.sent p.id (StcMessage.VoteOptions (living.map Player.name)),
           Event.received p.id (resp i)] ++ evs, ?_, ?_, ?_⟩
      · simp only [voteLoop, hr, heq]
      · intro b hb
        rcases hkeys b hb with hmem | ⟨k, hk, hv, hn⟩
        · exact Or.inl hmem
        · exact Or.inr ⟨k + 1, by simpa using hk,
            by rwa [show i + (k + 1) = i + 1 + k from by omega], by simpa using hn⟩
      · rintro (hacc | ⟨k, hk, v', hv'⟩)
        · exact hne (Or.inl hacc)
        · cases k with
          | zero =>
            rw [show i + 0 = i from rfl, hr] at hv'
            exact CtsMessage.noConfusion hv'
          | succ kk =>
            exact hne (Or.inr ⟨kk, by simpa using hk, v',
              by rw [show i + 1 + kk = i + (kk + 1) from by omega]; exact hv'⟩)
    | Received =>
      obtain ⟨bs, evs, heq, hkeys, hne⟩ :=
        voteLoop_spec allP living resp ps (i + 1) acc hvalid'
      refine ⟨bs,
        sendAll allP (StcMessage.WaitingFor p.name) ++
          [Event.sent p.id (StcMessage.VoteOptions (living.map Player.name)),
           Event.received p.id (resp i)] ++ evs, ?_, ?_, ?_⟩
      · simp only [voteLoop, hr, heq]
      · intro b hb
        rcases hkeys b hb with hmem | ⟨k, hk, hv, hn⟩
        · exact Or.inl hmem
        · exact Or.inr ⟨k + 1, by simpa using hk,
            by rwa [show i + (k + 1) = i + 1 + k from by omega], by simpa using hn⟩
      · rintro (hacc | ⟨k, hk, v', hv'⟩)
        · exact hne (Or.inl hacc)
        · cases k with
          | zero =>
            rw [show i + 0 = i from rfl, hr] at hv'
            exact CtsMessage.noConfusion hv'
          | succ kk =>
            exact hne (Or.inr ⟨kk, by simpa using hk, v',
              by rw [show i + 1 + kk = i + (kk + 1) from by omega]; exact hv'⟩)

/-- Inversion of a successful night phase: the wolf's response was a
`Kill` with an in-range index into the living non-wolf candidate list, and
that candidate was marked dead. -/
lemma play_night_inv {g g' : Game} {resp : CtsMessage} {victim : String}
    {evs : List Event} (h : g.play_night resp = some (g', victim, evs)) :
    rolesAssigned g.players = true ∧
    ∃ num, resp = CtsMessage.Kill num ∧
      ∃ v, (g.players.filter killEligible).get? num = some v ∧
        victim = v.name ∧
        g'.players = markNth killEligible g.players num ∧
        g'.next_id = g.next_id ∧
        ∃ wolf, g.players.find? (fun p => decide (p.role = some Role.Wolf)) = some wolf ∧
          evs = sendAll g.players StcMessage.NightFalls ++
            sendAll g.players StcMessage.WolvesWake ++
            [Event.sent wolf.id (StcMessage.KillOptions
              ((g.players.filter killEligible).map Player.name)),
             Event.received wolf.id resp] := by
  simp only [Game.play_night] at h
  by_cases hra : rolesAssigned g.players = true
  · rw [if_pos hra] at h
    refine ⟨hra, ?_⟩
    cases hfind : g.players.find? (fun p => decide (p.role = some Role.Wolf)) with
    | none => simp only [hfind] at h; exact absurd h (by simp)
    | some wolf =>
      simp only [hfind] at h
      cases resp with
      | Kill num =>
        cases hget : (g.players.filter killEligible).get? num with
        | none => simp only [hget] at h; exact absurd h (by simp)
        | some v =>
          simp only [hget] at h
          simp only [Option.some_inj, Prod.mk.injEq] at h
          obtain ⟨hg, hv, hevs⟩ := h
          exact ⟨num, rfl, v, hget, hv.symm, by rw [← hg],
            by rw [← hg], wolf, rfl, by rw [← hevs]⟩
      | Connect nm => exact absurd h (by simp)
      | Vote n => exact absurd h (by simp)
      | Received => exact absurd h (by simp)
  · rw [if_neg hra] at h
    exact absurd h (by simp)

/-- Inversion of a successful day phase: the recorded ballots were
tabulated, a maximal-count candidate index was picked, and either it had a
strict majority (and the player at that position in the living list was
marked dead, with the winner decided by its role and the pre-elimination
living count) or `NoMajority` was broadcast and the game is unchanged. -/
lemma play_day_inv {g g' : Game} {kn : String} {resp : Nat → CtsMessage}
    {w : Option Winner} {evs : List Event}
    (h : g.play_day kn resp = some (g', w, evs)) :
    ∃ bs levs, voteLoop g.players g.living resp 0 g.living [] = some (bs, levs) ∧
      ∃ idx, (ballotIndices bs).argmax (voteCount bs) = some idx ∧
        ((voteCount bs idx > g.living.length / 2 ∧
          ∃ p r, g.living.get? idx = some p ∧ p.role = some r ∧
            g'.players = markNth (fun q => !q.dead) g.players idx ∧
            g'.next_id = g.next_id ∧
            w = (match r with
                 | Role.Wolf => some Winner.Village
                 | Role.Villager =>
                   if g.living.length = 2 then some Winner.Wolf else none) ∧
            evs = sendAll g.players (StcMessage.Died kn) ++ levs ++
              sendAll g.players (StcMessage.VotedOut p.name)) ∨
         (¬ voteCount bs idx > g.living.length / 2 ∧ g' = g ∧ w = none ∧
          evs = sendAll g.players (StcMessage.Died kn) ++ levs ++
            sendAll g.players StcMessage.NoMajority)) := by
  simp only [Game.play_day] at h
  cases hloop : voteLoop g.players g.living resp 0 g.living [] with
  | none => simp only [hloop] at h; exact absurd h (by simp)
  | some out =>
    obtain ⟨bs, levs⟩ := out
    simp only [hloop] at h
    refine ⟨bs, levs, rfl, ?_⟩
    cases hmax : (ballotIndices bs).argmax (voteCount bs) with
    | none => simp only [hmax] at h; exact absurd h (by simp)
    | some idx =>
      simp only [hmax] at h
      refine ⟨idx, rfl, ?_⟩
      by_cases hc : voteCount bs idx > g.living.length / 2
      · rw [if_pos hc] at h
        cases hget : g.living.get? idx with
        | none => simp only [hget] at h; exact absurd h (by simp)
        | some p =>
          simp only [hget] at h
          cases hrole : p.role with
          | none => simp only [hrole] at h; exact absurd h (by simp)
          | some r =>
            simp only [hrole] at h
            cases r with
            | Wolf =>
              simp only [Option.some_inj, Prod.mk.injEq] at h
              obtain ⟨hg, hw, hevs⟩ := h
              exact Or.inl ⟨hc, p, Role.Wolf, rfl, hrole, by rw [← hg],
                by rw [← hg], by rw [← hw], by rw [← hevs]⟩
            | Villager =>
              by_cases hlen : g.living.length = 2
              · rw [if_pos hlen] at h
                simp only [Option.some_inj, Prod.mk.injEq] at h
                obtain ⟨hg, hw, hevs⟩ := h
                refine Or.inl ⟨hc, p, Role.Villager, rfl, hrole, by rw [← hg],
                  by rw [← hg], ?_, by rw [← hevs]⟩
                rw [← hw]
                simp [hlen]
              · rw [if_neg hlen] at h
                simp only [Option.some_inj, Prod.mk.injEq] at h
                obtain ⟨hg, hw, hevs⟩ := h
                refine Or.inl ⟨hc, p, Role.Villager, rfl, hrole, by rw [← hg],
                  by rw [← hg], ?_, by rw [← hevs]⟩
                rw [← hw]
                simp [hlen]
      · rw [if_neg hc] at h
        simp only [Option.some_inj, Prod.mk.injEq] at h
        obtain ⟨hg, hw, hevs⟩ := h
        exact Or.inr ⟨hc, hg.symm, hw.symm, hevs.symm⟩

/-- The day phase does not panic as long as every role is assigned, every
`Vote` response is in range, and at least one living player actually
voted. -/
lemma play_day_total {g : Game} (kn : String) {resp : Nat → CtsMessage}
    (hroles : rolesAssigned g.players = true)
    (hvalid : ∀ k, k < g.living.length → ∀ v, resp k = CtsMessage.Vote v →
      v < g.living.length)
    (hvoter : ∃ k, k < g.living.length ∧ ∃ v, resp k = CtsMessage.Vote v) :
    ∃ out, g.play_day kn resp = some out := by
  obtain ⟨bs, levs, hloop, hkeys, hne⟩ :=
    voteLoop_spec g.players g.living resp g.living 0 []
      (fun k hk v hv => hvalid k hk v (by rwa [Nat.zero_add] at hv))
  have hbs : bs ≠ [] := by
    refine hne (Or.inr ?_)
    obtain ⟨k, hk, v, hv⟩ := hvoter
    exact ⟨k, hk, v, by rwa [Nat.zero_add]⟩
  have hidx : ballotIndices bs ≠ [] := by
    simp only [ballotIndices, ne_eq, List.dedup_eq_nil, List.map_eq_nil_iff]
    exact hbs
  cases hmax : (ballotIndices bs).argmax (voteCount bs) with
  | none => exact absurd (List.argmax_eq_none.mp hmax) hidx
  | some idx =>
    have hidxmem : idx ∈ ballotIndices bs := List.argmax_mem hmax
    have hidxlt : idx < g.living.length := by
      simp only [ballotIndices, List.mem_dedup, List.mem_map] at hidxmem
      obtain ⟨b, hb, hbid⟩ := hidxmem
      rcases hkeys b hb with hfalse | ⟨k, hk, hv, -⟩
      · exact absurd hfalse (by simp)
      · rw [Nat.zero_add] at hv
        exact hbid ▸ hvalid k hk b.2 hv
    have hget : g.living.get? idx = some (g.living.get ⟨idx, hidxlt⟩) :=
      List.get?_eq_get hidxlt
    have hmem : g.living.get ⟨idx, hidxlt⟩ ∈ g.players := by
      have hself : g.living.get ⟨idx, hidxlt⟩ ∈ g.living := List.get_mem _ _ _
      simp only [Game.living] at hself
      exact (List.mem_filter.mp hself).1
    have hrole : ∃ r, (g.living.get ⟨idx, hidxlt⟩).role = some r := by
      have := (List.all_eq_true.mp hroles) _ hmem
      exact Option.isSome_iff_exists.mp (by simpa using this)
    obtain ⟨r, hrole⟩ := hrole
    by_cases hc : voteCount bs idx > g.living.length / 2
    · cases r with
      | Wolf =>
        exact ⟨_, by
          simp only [Game.play_day, hloop, hmax, hget, hrole, if_pos hc]
          rfl⟩
      | Villager =>
        by_cases hlen : g.living.length = 2
        · exact ⟨_, by
            simp only [Game.play_day, hloop, hmax, hget, hrole, if_pos hc,
              if_pos hlen]
            rfl⟩
        · exact ⟨_, by
            simp only [Game.play_day, hloop, hmax, hget, hrole, if_pos hc,
              if_neg hlen]
            rfl⟩
    · exact ⟨_, by simp only [Game.play_day, hloop, hmax, if_neg hc]; rfl⟩

/-! ## Claim theorems -/

/-- **C1** (majority rule): in a completed day phase with `N` living
players, the tabulated top candidate (its ballot count is maximal) is
eliminated — marked dead, and it alone — if and only if its count `C`
satisfies `C > N / 2`; when `C ≤ N / 2` the game state is unchanged, no
winner is declared, and `NoMajority` is broadcast to every player. -/
theorem c1_majority_rule (g g' : Game) (kn : String) (resp : Nat → CtsMessage)
    (w : Option Winner) (evs : List Event) (bs : List (String × Nat))
    (levs : List Event) (idx : Nat)
    (hday : g.play_day kn resp = some (g', w, evs))
    (hloop : voteLoop g.players g.living resp 0 g.living [] = some (bs, levs))
    (hmax : (ballotIndices bs).argmax (voteCount bs) = some idx) :
    (∀ j ∈ ballotIndices bs, voteCount bs j ≤ voteCount bs idx) ∧
    (voteCount bs idx > g.living.length / 2 →
      ∃ p, g.living.get? idx = some p ∧ p.dead = false ∧
        ∃ i, g.players.get? i = some p ∧
          g'.players = g.players.set i { p with dead := true }) ∧
    (voteCount bs idx ≤ g.living.length / 2 →
      g'.players = g.players ∧ w = none ∧
      ∀ p ∈ g.players, Event.sent p.id StcMessage.NoMajority ∈ evs) := by
  obtain ⟨bs', levs', hloop', idx', hmax', hbr⟩ := play_day_inv hday
  have hpair := hloop'.symm.trans hloop
  rw [Option.some_inj, Prod.mk.injEq] at hpair
  obtain ⟨hbs, hlevs⟩ := hpair
  subst hbs; subst hlevs
  have hidx := hmax'.symm.trans hmax
  rw [Option.some_inj] at hidx
  subst hidx
  refine ⟨?_, ?_, ?_⟩
  · intro j hj
    exact List.le_of_mem_argmax hj (Option.mem_def.mpr hmax)
  · intro hc
    rcases hbr with ⟨-, p, r, hget, hrole, hpl, -, -, -⟩ | ⟨hnc, -⟩
    · have hpdead : p.dead = false := by
        have hmem := List.get?_mem hget
        simp only [Game.living, List.mem_filter] at hmem
        simpa using hmem.2
      obtain ⟨i, hi, hset⟩ := markNth_eq_set (fun q => !q.dead) g.players _ p
        (by simpa [Game.living] using hget)
      exact ⟨p, hget, hpdead, i, hi, by rw [hpl, hset]⟩
    · exact absurd hc hnc
  · intro hc
    rcases hbr with ⟨hc', -⟩ | ⟨-, hg, hw, hevs⟩
    · omega
    · subst hg
      refine ⟨rfl, hw, fun p hp => ?_⟩
      rw [hevs]
      exact List.mem_append_right _ (sendAll_mem hp _)

/-- Witness for C1: the lone living villager of `gOne` votes for itself
(count 1 > 1/2 = 0), and is indeed the player marked dead. -/
theorem c1_majority_rule_witness :
    Game.play_day gOne "x" (fun _ => CtsMessage.Vote 0) =
      some (gOne', none, c1evs) ∧
    ∃ p, gOne.living.get? 0 = some p ∧ p.dead = false ∧
      ∃ i, gOne.players.get? i = some p ∧
        gOne'.players = gOne.players.set i { p with dead := true } :=
  ⟨rfl, (c1_majority_rule gOne gOne' "x" (fun _ => CtsMessage.Vote 0) none c1evs
      [("A", 0)] c1levs 0 rfl rfl rfl).2.1 (by decide)⟩

/-- **C2** (code bug, exhibited): in `gThree` (wolf `W`, villagers `A`,
`B`, all alive) every player votes for candidate index 0, so the villager
`A` is eliminated by a 3-to-0 majority.  After that elimination exactly
two players remain alive — the wolf `W` and the villager `B`, the
wolf-parity condition — yet the day phase returns **no winner** and the
game continues: the code compares the *pre-elimination* living count
(`living_mut.len()`, collected before `voted.dead = true`) with 2, even
though its own comment says the wolves win when "the number of wolves left
is equal to the number of villagers left (one wolf and one villager)". -/
theorem c2_parity_check_fires_late :
    dayResult (Game.play_day gThree "x" (fun _ => CtsMessage.Vote 0)) =
      some ({ players :=
                [{ id := 0, name := "A", dead := true, role := some Role.Villager },
                 { id := 1, name := "B", dead := false, role := some Role.Villager },
                 { id := 2, name := "W", dead := false, role := some Role.Wolf }],
              next_id := 3 }, none) := by
  rfl

/-- **C3** (code bug, exhibited): a wolf response to `KillOptions` that is
not a `Kill`, or a `Kill` whose index is outside the candidate list
(`gThree` offers two candidates, indices 0 and 1), makes the night phase
panic (`none`), unwinding the server thread and aborting the game for
*all* peers — not just degrading the wolf's session. -/
theorem c3_wolf_protocol_violation_aborts_game :
    Game.play_night gThree CtsMessage.Received = none ∧
    Game.play_night gThree (CtsMessage.Vote 0) = none ∧
    Game.play_night gThree (CtsMessage.Kill 2) = none := by
  exact ⟨rfl, rfl, rfl⟩

/-- **C8 counterexample**: the host resolves a `Vote` by *index*, not by
player identity.  In `c8g` the player identities are 10, 11, 12 — no
player has identity 0 — yet when every player sends `Vote 0` the player at
*position* 0 of the living list (identity 10) is eliminated.  Under
identity-based addressing a target value of 0 could not name any player. -/
theorem c8_counterexample :
    dayResult (Game.play_day c8g "x" (fun _ => CtsMessage.Vote 0)) =
      some ({ players :=
                [{ id := 10, name := "A", dead := true, role := some Role.Villager },
                 { id := 11, name := "B", dead := false, role := some Role.Villager },
                 { id := 12, name := "W", dead := false, role := some Role.Wolf }],
              next_id := 13 }, none) ∧
    c8g.players.all (fun p => decide (p.id ≠ 0)) = true := by
  exact ⟨rfl, rfl⟩

/-- **C8 amended**: vote and kill addressing is positional.  A day-phase
majority eliminates the player at position `idx` of the living list
(whatever its identity), and a night `Kill n` kills the `n`-th entry of
the living non-wolf candidate list; the server-to-client day messages
identify players by display name. -/
theorem c8_index_addressing (g g' : Game) (kn : String) (resp : Nat → CtsMessage)
    (w : Option Winner) (evs : List Event) (bs : List (String × Nat))
    (levs : List Event) (idx : Nat)
    (hday : g.play_day kn resp = some (g', w, evs))
    (hloop : voteLoop g.players g.living resp 0 g.living [] = some (bs, levs))
    (hmax : (ballotIndices bs).argmax (voteCount bs) = some idx)
    (hc : voteCount bs idx > g.living.length / 2) :
    (∃ p, g.living.get? idx = some p ∧
      ∃ i, g.players.get? i = some p ∧
        g'.players = g.players.set i { p with dead := true } ∧
        Event.sent p.id (StcMessage.VotedOut p.name) ∈ evs) ∧
    (∀ (gn gn' : Game) (n : Nat) (victim : String) (evsn : List Event),
      gn.play_night (CtsMessage.Kill n) = some (gn', victim, evsn) →
      ∃ q, (gn.players.filter killEligible).get? n = some q ∧ victim = q.name) := by
  constructor
  · obtain ⟨bs', levs', hloop', idx', hmax', hbr⟩ := play_day_inv hday
    have hpair := hloop'.symm.trans hloop
    rw [Option.some_inj, Prod.mk.injEq] at hpair
    obtain ⟨hbs, hlevs⟩ := hpair
    subst hbs; subst hlevs
    have hidx := hmax'.symm.trans hmax
    rw [Option.some_inj] at hidx
    subst hidx
    rcases hbr with ⟨-, p, r, hget, hrole, hpl, -, -, hevs⟩ | ⟨hnc, -⟩
    · obtain ⟨i, hi, hset⟩ := markNth_eq_set (fun q => !q.dead) g.players _ p
        (by simpa [Game.living] using hget)
      refine ⟨p, hget, i, hi, by rw [hpl, hset], ?_⟩
      rw [hevs]
      have hmem : p ∈ g.players := by
        have := List.get?_mem hget
        simp only [Game.living, List.mem_filter] at this
        exact this.1
      exact List.mem_append_right _ (sendAll_mem hmem _)
    · exact absurd hc hnc
  · intro gn gn' n victim evsn hnight
    obtain ⟨-, num, hkill, v, hget, hv, -⟩ := play_night_inv hnight
    have hn : num = n := by
      injection hkill.symm
    subst hn
    exact ⟨v, hget, hv⟩

/-- Witness for C8's amended theorem, at the concrete input `gOne` with
its single voter voting index 0 (a majority): the eliminated player is the
one at living position 0. -/
theorem c8_index_addressing_witness :
    (∃ p, gOne.living.get? 0 = some p ∧
      ∃ i, gOne.players.get? i = some p ∧
        gOne'.players = gOne.players.set i { p with dead := true } ∧
        Event.sent p.id (StcMessage.VotedOut p.name) ∈ c1evs) ∧
    (∀ (gn gn' : Game) (n : Nat) (victim : String) (evsn : List Event),
      gn.play_night (CtsMessage.Kill n) = some (gn', victim, evsn) →
      ∃ q, (gn.players.filter killEligible).get? n = some q ∧ victim = q.name) :=
  c8_index_addressing gOne gOne' "x" (fun _ => CtsMessage.Vote 0) none c1evs
    [("A", 0)] c1levs 0 rfl rfl rfl (by decide)

/-- **C4** (wolf immunity at night, Village win on wolf elimination): the
night candidate filter accepts exactly the living non-wolf players, every
completed night kill strikes a player that was alive and not the wolf
(every player holding the Wolf role is untouched), the candidate list
offered to the wolf is exactly the names of the living non-wolf players,
and whenever a day-phase majority eliminates the player holding the Wolf
role the phase returns `Winner.Village` immediately. -/
theorem c4_wolf_immunity_and_village_win
    (g g' : Game) (resp : CtsMessage) (victim : String) (evs : List Event)
    (hnight : g.play_night resp = some (g', victim, evs))
    (gd gd' : Game) (kn : String) (dresp : Nat → CtsMessage) (dw : Option Winner)
    (devs : List Event) (bs : List (String × Nat)) (levs : List Event) (idx : Nat)
    (p : Player)
    (hday : gd.play_day kn dresp = some (gd', dw, devs))
    (hloop : voteLoop gd.players gd.living dresp 0 gd.living [] = some (bs, levs))
    (hmax : (ballotIndices bs).argmax (voteCount bs) = some idx)
    (hc : voteCount bs idx > gd.living.length / 2)
    (hp : gd.living.get? idx = some p)
    (hwolf : p.role = some Role.Wolf) :
    (∀ q, killEligible q = true ↔ (q.role ≠ some Role.Wolf ∧ q.dead = false)) ∧
    (∃ v ∈ g.players, v.role ≠ some Role.Wolf ∧ v.dead = false ∧ victim = v.name) ∧
    (∀ j q, g.players.get? j = some q → q.role = some Role.Wolf →
      g'.players.get? j = some q) ∧
    (∃ wolf : Player, Event.sent wolf.id (StcMessage.KillOptions
      ((g.players.filter killEligible).map Player.name)) ∈ evs) ∧
    dw = some Winner.Village := by
  obtain ⟨hra, num, hkill, v, hget, hv, hpl, hnid, wolf, hfind, hevs⟩ :=
    play_night_inv hnight
  obtain ⟨hvmem, hvelig⟩ := get?_filter_props hget
  have hvrole : v.role ≠ some Role.Wolf ∧ v.dead = false := by
    simpa [killEligible] using hvelig
  refine ⟨fun q => by simp [killEligible], ⟨v, hvmem, hvrole.1, hvrole.2, hv⟩,
    ?_, ?_, ?_⟩
  · intro j q hj hq
    obtain ⟨i, hi, hset⟩ := markNth_eq_set killEligible g.players num v hget
    rw [hpl, hset]
    rcases eq_or_ne i j with hij | hij
    · subst hij
      rw [hi] at hj
      rw [Option.some_inj] at hj
      subst hj
      exact absurd hq hvrole.1
    · rw [List.get?_set_ne _ _ hij]
      exact hj
  · refine ⟨wolf, ?_⟩
    rw [hevs]
    exact List.mem_append_right _ (List.mem_cons_self _ _)
  · obtain ⟨bs', levs', hloop', idx', hmax', hbr⟩ := play_day_inv hday
    have hpair := hloop'.symm.trans hloop
    rw [Option.some_inj, Prod.mk.injEq] at hpair
    obtain ⟨hbs, hlevs⟩ := hpair
    subst hbs; subst hlevs
    have hidx := hmax'.symm.trans hmax
    rw [Option.some_inj] at hidx
    subst hidx
    rcases hbr with ⟨-, p', r, hget', hrole', -, -, hwval, -⟩ | ⟨hnc, -⟩
    · have hpp : p' = p := by
        have := hget'.symm.trans hp
        rwa [Option.some_inj] at this
      subst hpp
      have hr : r = Role.Wolf := by
        have := hrole'.symm.trans hwolf
        rwa [Option.some_inj] at this
      subst hr
      exact hwval
    · exact absurd hc hnc

/-- Witness for C4: the wolf of `gTwoRoles` answers `Kill 0` (killing the
villager `A`), and in `gWolfOnly` the lone wolf votes itself out by
majority, which returns `Winner.Village`. -/
theorem c4_wolf_immunity_and_village_win_witness :
    (∀ q, killEligible q = true ↔ (q.role ≠ some Role.Wolf ∧ q.dead = false)) ∧
    (∃ v ∈ gTwoRoles.players, v.role ≠ some Role.Wolf ∧ v.dead = false ∧
      "A" = v.name) ∧
    (∀ j q, gTwoRoles.players.get? j = some q → q.role = some Role.Wolf →
      gTwoRoles'.players.get? j = some q) ∧
    (∃ wolf : Player, Event.sent wolf.id (StcMessage.KillOptions
      ((gTwoRoles.players.filter killEligible).map Player.name)) ∈ c4nEvs) ∧
    (some Winner.Village : Option Winner) = some Winner.Village :=
  c4_wolf_immunity_and_village_win gTwoRoles gTwoRoles' (CtsMessage.Kill 0) "A"
    c4nEvs rfl gWolfOnly gWolfOnly' "x" (fun _ => CtsMessage.Vote 0)
    (some Winner.Village) c4devs [("W", 0)] c4levs 0
    { id := 0, name := "W", dead := false, role := some Role.Wolf }
    rfl rfl rfl (by decide) rfl rfl

/-- **C5** (role assignment): with a drawn wolf index `w < len`,
`assign_roles` gives exactly one player the Wolf role; every registered
player (its identity, name and liveness untouched) is assigned a role —
Wolf exactly at position `w`, Villager everywhere else — and is privately
sent its own `RoleAssigned`; and neither a night phase nor a day phase
ever changes any player's role, so roles are fixed until the game ends. -/
theorem c5_role_assignment (g : Game) (w : Nat) (hw : w < g.players.length) :
    ((g.assign_roles w).1.players.countP
      (fun p => decide (p.role = some Role.Wolf)) = 1) ∧
    (∀ j p, g.players.get? j = some p →
      (g.assign_roles w).1.players.get? j =
        some { p with role := some (if j = w then Role.Wolf else Role.Villager) } ∧
      Event.sent p.id (StcMessage.RoleAssigned
        (if j = w then Role.Wolf else Role.Villager)) ∈ (g.assign_roles w).2) ∧
    (∀ (g1 : Game) (r1 : CtsMessage) (g1' : Game) (v : String) (evs : List Event),
      Game.play_night g1 r1 = some (g1', v, evs) →
      ∀ j, (g1'.players.get? j).map Player.role = (g1.players.get? j).map Player.role) ∧
    (∀ (g1 : Game) (kn : String) (dr : Nat → CtsMessage) (g1' : Game)
      (w1 : Option Winner) (evs : List Event),
      Game.play_day g1 kn dr = some (g1', w1, evs) →
      ∀ j, (g1'.players.get? j).map Player.role = (g1.players.get? j).map Player.role) := by
  refine ⟨?_, ?_, ?_, ?_⟩
  · have h := assignFrom_count w g.players 0
    rw [if_pos (by omega)] at h
    simpa [Game.assign_roles] using h
  · intro j p hj
    have h := assignFrom_get w g.players 0 j p hj
    rw [Nat.zero_add] at h
    exact ⟨by simpa [Game.assign_roles] using h.1,
      by simpa [Game.assign_roles] using h.2⟩
  · intro g1 r1 g1' v evs hnight j
    obtain ⟨-, num, -, v', -, -, hpl, -, -⟩ := play_night_inv hnight
    rw [hpl]
    exact markNth_get?_role killEligible g1.players num j
  · intro g1 kn dr g1' w1 evs hday j
    obtain ⟨bs, levs, -, idx, -, hbr⟩ := play_day_inv hday
    rcases hbr with ⟨-, p, r, -, -, hpl, -, -, -⟩ | ⟨-, hg, -, -⟩
    · rw [hpl]
      exact markNth_get?_role (fun q => !q.dead) g1.players idx j
    · rw [hg]

/-- Witness for C5 at `gTwoUnassigned` with wolf index 0. -/
theorem c5_role_assignment_witness :
    0 < gTwoUnassigned.players.length ∧
    ((gTwoUnassigned.assign_roles 0).1.players.countP
      (fun p => decide (p.role = some Role.Wolf)) = 1) :=
  ⟨by decide, (c5_role_assignment gTwoUnassigned 0 (by decide)).1⟩

/-- **C6 counterexample**: when `B` joins the one-player registry `c6g`,
the host's trace sends the `AnnounceJoin` broadcast (trace position 3)
*before* the roster snapshot to the newcomer (trace position 5), so the
spec's claimed handshake order — snapshot first, then the join broadcast —
is violated by the code. -/
theorem c6_counterexample :
    Player.join c6g (CtsMessage.Connect "B") = some (c6g', c6evs) ∧
    ¬ specSnapshotBeforeAnnounce c6evs := by
  refine ⟨rfl, ?_⟩
  unfold specSnapshotBeforeAnnounce
  decide

/-- **C6 amended**: the join handshake runs in the fixed order: the client
sends `Connect(name)`; the host replies `IdAssigned` and waits for the
client's `Received`; the host then broadcasts `AnnounceJoin` to the
previously-registered players — never to the newcomer — and only after
that sends the newcomer the roster snapshot of the existing players. -/
theorem c6_handshake_order (g : Game) (nm : String)
    (hfresh : ∀ p ∈ g.players, p.id < g.next_id)
    (g' : Game) (evs : List Event)
    (hjoin : Player.join g (CtsMessage.Connect nm) = some (g', evs)) :
    evs = [Event.received g.next_id (CtsMessage.Connect nm),
           Event.sent g.next_id (StcMessage.IdAssigned g.next_id),
           Event.received g.next_id CtsMessage.Received] ++
          (sendAll g.players (StcMessage.AnnounceJoin g.next_id nm) ++
           [Event.sent g.next_id
              (StcMessage.Players (g.players.map fun p => (p.id, p.name))),
            Event.received g.next_id CtsMessage.Received]) ∧
    (∀ a b, Event.sent g.next_id (StcMessage.AnnounceJoin a b) ∉ evs) := by
  have hpair := (join_eq g nm).symm.trans hjoin
  rw [Option.some_inj, Prod.mk.injEq] at hpair
  obtain ⟨-, hevs⟩ := hpair
  subst hevs
  refine ⟨rfl, ?_⟩
  intro a b hmem
  simp only [List.mem_append, List.mem_cons, List.not_mem_nil, or_false] at hmem
  rcases hmem with (h | h | h) | h | h | h
  · exact Event.noConfusion h
  · exact StcMessage.noConfusion (Event.sent.inj h).2
  · exact Event.noConfusion h
  · exact no_self_announce hfresh a b h
  · exact StcMessage.noConfusion (Event.sent.inj h).2
  · exact Event.noConfusion h

/-- Witness for C6's amended theorem: `B` joining `c6g`. -/
theorem c6_handshake_order_witness :
    c6evs = [Event.received 1 (CtsMessage.Connect "B"),
             Event.sent 1 (StcMessage.IdAssigned 1),
             Event.received 1 CtsMessage.Received] ++
            (sendAll c6g.players (StcMessage.AnnounceJoin 1 "B") ++
             [Event.sent 1 (StcMessage.Players (c6g.players.map fun p => (p.id, p.name))),
              Event.received 1 CtsMessage.Received]) ∧
    (∀ a b, Event.sent 1 (StcMessage.AnnounceJoin a b) ∉ c6evs) :=
  c6_handshake_order c6g "B" (by decide) c6g' c6evs rfl

/-- **C7** (roster exactness and join visibility): the roster snapshot
sent to a newcomer lists exactly the `(identity, name)` pairs of the
players registered before the newcomer's insertion (and is the only
snapshot in the trace), the newcomer receives no `AnnounceJoin` at all —
in particular none about itself — and every previously-registered player
receives the newcomer's `AnnounceJoin`. -/
theorem c7_roster_and_join_visibility (g : Game) (nm : String)
    (hfresh : ∀ p ∈ g.players, p.id < g.next_id)
    (g' : Game) (evs : List Event)
    (hjoin : Player.join g (CtsMessage.Connect nm) = some (g', evs)) :
    Event.sent g.next_id
      (StcMessage.Players (g.players.map fun p => (p.id, p.name))) ∈ evs ∧
    (∀ r l, Event.sent r (StcMessage.Players l) ∈ evs →
      r = g.next_id ∧ l = g.players.map fun p => (p.id, p.name)) ∧
    (∀ a b, Event.sent g.next_id (StcMessage.AnnounceJoin a b) ∉ evs) ∧
    (∀ p ∈ g.players, Event.sent p.id (StcMessage.AnnounceJoin g.next_id nm) ∈ evs) := by
  have hpair := (join_eq g nm).symm.trans hjoin
  rw [Option.some_inj, Prod.mk.injEq] at hpair
  obtain ⟨-, hevs⟩ := hpair
  subst hevs
  refine ⟨?_, ?_, ?_, ?_⟩
  · simp
  · intro r l hmem
    simp only [List.mem_append, List.mem_cons, List.not_mem_nil, or_false] at hmem
    rcases hmem with (h | h | h) | h | h | h
    · exact Event.noConfusion h
    · exact StcMessage.noConfusion (Event.sent.inj h).2
    · exact Event.noConfusion h
    · obtain ⟨hm, -⟩ := sendAll_sent_inv h
      exact StcMessage.noConfusion hm
    · obtain ⟨hr, hl⟩ := Event.sent.inj h
      exact ⟨hr, (StcMessage.Players.inj hl).symm ▸ rfl⟩
    · exact Event.noConfusion h
  · intro a b hmem
    simp only [List.mem_append, List.mem_cons, List.not_mem_nil, or_false] at hmem
    rcases hmem with (h | h | h) | h | h | h
    · exact Event.noConfusion h
    · exact StcMessage.noConfusion (Event.sent.inj h).2
    · exact Event.noConfusion h
    · exact no_self_announce hfresh a b h
    · exact StcMessage.noConfusion (Event.sent.inj h).2
    · exact Event.noConfusion h
  · intro p hp
    refine List.mem_append_right _ (List.mem_append_left _ ?_)
    exact sendAll_mem hp _

/-- Witness for C7: `B` joining `c6g` — the snapshot is `[(0, "A")]`,
`B` (identity 1) gets no `AnnounceJoin`, and `A` (identity 0) receives
`AnnounceJoin 1 "B"`. -/
theorem c7_roster_and_join_visibility_witness :
    Event.sent 1 (StcMessage.Players (c6g.players.map fun p => (p.id, p.name))) ∈ c6evs ∧
    (∀ r l, Event.sent r (StcMessage.Players l) ∈ c6evs →
      r = 1 ∧ l = c6g.players.map fun p => (p.id, p.name)) ∧
    (∀ a b, Event.sent 1 (StcMessage.AnnounceJoin a b) ∉ c6evs) ∧
    (∀ p ∈ c6g.players, Event.sent p.id (StcMessage.AnnounceJoin 1 "B") ∈ c6evs) :=
  c7_roster_and_join_visibility c6g "B" (by decide) c6g' c6evs rfl

lemma assignFrom_assignFrom (w w' : Nat) :
    ∀ (ps : List Player) (i : Nat),
      (assignFrom w' i (assignFrom w i ps).1).1 = (assignFrom w' i ps).1
  | [], _ => rfl
  | p :: ps, i => by
    simp [assignFrom, assignFrom_assignFrom w w' ps (i + 1)]

/-- **C9 counterexample**: invoking `assign_roles` a second time on
`gTwoUnassigned` is neither rejected nor a no-op: after a first assignment
with wolf index 0, player 0 holds the Wolf role, but a second invocation
with wolf index 1 changes player 0's already-assigned role to Villager. -/
theorem c9_counterexample :
    (((gTwoUnassigned.assign_roles 0).1.players.get? 0).map Player.role =
      some (some Role.Wolf)) ∧
    ((((gTwoUnassigned.assign_roles 0).1.assign_roles 1).1.players.get? 0).map
      Player.role = some (some Role.Villager)) := by
  exact ⟨rfl, rfl⟩

/-- **C9 amended**: a second invocation of `assign_roles` is not guarded:
it simply reassigns every role according to the newly drawn wolf index
(the game state is as if only the second assignment had run), and whenever
the two drawn indices differ the player at the first wolf index has its
already-assigned Wolf role overwritten with Villager. -/
theorem c9_second_assignment_overwrites (g : Game) (w w' : Nat)
    (hw : w < g.players.length) (hne : w ≠ w') :
    ((g.assign_roles w).1.assign_roles w').1.players =
      (g.assign_roles w').1.players ∧
    ∃ p p', (g.assign_roles w).1.players.get? w = some p ∧
      p.role = some Role.Wolf ∧
      ((g.assign_roles w).1.assign_roles w').1.players.get? w = some p' ∧
      p'.role = some Role.Villager := by
  have hcomp : ((g.assign_roles w).1.assign_roles w').1.players =
      (g.assign_roles w').1.players := by
    simp only [Game.assign_roles]
    exact assignFrom_assignFrom w w' g.players 0
  refine ⟨hcomp, ?_⟩
  obtain ⟨p0, hp0⟩ : ∃ p0, g.players.get? w = some p0 := by
    cases hg : g.players.get? w with
    | none => exact absurd (List.get?_eq_none.mp hg) (by omega)
    | some p0 => exact ⟨p0, rfl⟩
  have h1 := assignFrom_get w g.players 0 w p0 hp0
  rw [Nat.zero_add] at h1
  have h2 := assignFrom_get w' g.players 0 w p0 hp0
  rw [Nat.zero_add] at h2
  refine ⟨{ p0 with role := some Role.Wolf }, { p0 with role := some Role.Villager },
    by simpa [Game.assign_roles, if_pos rfl] using h1.1, rfl, ?_, rfl⟩
  rw [hcomp]
  simpa [Game.assign_roles, if_neg hne] using h2.1

/-- Witness for C9's amended theorem at `gTwoUnassigned`, first wolf
index 0, second wolf index 1. -/
theorem c9_second_assignment_overwrites_witness :
    ((gTwoUnassigned.assign_roles 0).1.assign_roles 1).1.players =
      (gTwoUnassigned.assign_roles 1).1.players ∧
    ∃ p p', (gTwoUnassigned.assign_roles 0).1.players.get? 0 = some p ∧
      p.role = some Role.Wolf ∧
      ((gTwoUnassigned.assign_roles 0).1.assign_roles 1).1.players.get? 0 = some p' ∧
      p'.role = some Role.Villager :=
  c9_second_assignment_overwrites gTwoUnassigned 0 1 (by decide) (by decide)

/-- **C10** (non-`Vote` responses tolerated): with roles assigned,
distinct living names, every `Vote` response in range, and at least one
living player actually voting, the day phase completes (no panic: the
host proceeds to the next voter after an unexpected response and the
tabulation succeeds), and no ballot is recorded for any living player
whose response was not a `Vote`. -/
theorem c10_non_vote_response_tolerated (g : Game) (kn : String)
    (resp : Nat → CtsMessage)
    (hroles : rolesAssigned g.players = true)
    (hnodup : (g.living.map Player.name).Nodup)
    (hvalid : ∀ k, k < g.living.length → ∀ v, resp k = CtsMessage.Vote v →
      v < g.living.length)
    (hvoter : ∃ k, k < g.living.length ∧ ∃ v, resp k = CtsMessage.Vote v) :
    ∃ g' w evs, g.play_day kn resp = some (g', w, evs) ∧
      ∃ bs levs, voteLoop g.players g.living resp 0 g.living [] = some (bs, levs) ∧
        ∀ k (hk : k < g.living.length), (∀ v, resp k ≠ CtsMessage.Vote v) →
          (g.living.get ⟨k, hk⟩).name ∉ bs.map Prod.fst := by
  obtain ⟨out, hout⟩ := play_day_total kn hroles hvalid hvoter
  obtain ⟨g', w, evs⟩ := out
  refine ⟨g', w, evs, hout, ?_⟩
  obtain ⟨bs, levs, hloop, hkeys, -⟩ :=
    voteLoop_spec g.players g.living resp g.living 0 []
      (fun k hk v hv => hvalid k hk v (by rwa [Nat.zero_add] at hv))
  refine ⟨bs, levs, hloop, ?_⟩
  intro k hk hnv hmem
  rw [List.mem_map] at hmem
  obtain ⟨b, hb, hb1⟩ := hmem
  rcases hkeys b hb with hfalse | ⟨k', hk', hv', hn'⟩
  · exact absurd hfalse (by simp)
  · rw [Nat.zero_add] at hv'
    have hnames : (g.living.get ⟨k, hk⟩).name = (g.living.get ⟨k', hk'⟩).name :=
      hb1.symm.trans hn'
    have hklen : k < (g.living.map Player.name).length := by simpa using hk
    have hk2len : k' < (g.living.map Player.name).length := by simpa using hk'
    have hmapeq : (g.living.map Player.name).get ⟨k, hklen⟩ =
        (g.living.map Player.name).get ⟨k', hk2len⟩ := by
      simpa [List.get_eq_getElem, List.getElem_map] using hnames
    have hkk := hnodup.get_inj_iff.mp hmapeq
    rw [Fin.mk.injEq] at hkk
    subst hkk
    exact hnv b.2 hv'

/-- Witness for C10: in `gTwoRoles` the villager `A` votes index 0 and
the wolf `W` answers `Received` instead of a vote; the day completes and
`W` has no ballot recorded. -/
theorem c10_non_vote_response_tolerated_witness :
    ∃ g' w evs,
      Game.play_day gTwoRoles "x"
        (fun i => if i = 0 then CtsMessage.Vote 0 else CtsMessage.Received) =
        some (g', w, evs) ∧
      ∃ bs levs, voteLoop gTwoRoles.players gTwoRoles.living
          (fun i => if i = 0 then CtsMessage.Vote 0 else CtsMessage.Received)
          0 gTwoRoles.living [] = some (bs, levs) ∧
        ∀ k (hk : k < gTwoRoles.living.length),
          (∀ v, (fun i => if i = 0 then CtsMessage.Vote 0 else CtsMessage.Received) k ≠
            CtsMessage.Vote v) →
          (gTwoRoles.living.get ⟨k, hk⟩).name ∉ bs.map Prod.fst :=
  c10_non_vote_response_tolerated gTwoRoles "x"
    (fun i => if i = 0 then CtsMessage.Vote 0 else CtsMessage.Received)
    (by decide) (by decide)
    (by
      intro k hk v hv
      by_cases hk0 : k = 0
      · subst hk0
        have hv2 : CtsMessage.Vote 0 = CtsMessage.Vote v := hv
        rw [CtsMessage.Vote.injEq] at hv2
        subst hv2
        decide
      · have hv2 : CtsMessage.Received = CtsMessage.Vote v := by
          rw [← hv]
          simp [hk0]
        exact CtsMessage.noConfusion hv2)
    ⟨0, by decide, 0, rfl⟩

end Wolf
